import Mathlib

/-!
Verification of the CSS color-value resolver from
`packages/kumo-figma/scripts/color-utils.ts` (`resolveColor`,
`extractCssVarFallback`, `convertOklchToFigma`, `convertHexToFigma`).

The resolver is embedded shallowly over `List Char` (JavaScript strings are
modelled as their character lists; JavaScript numbers are modelled as exact
rationals, with `NaN` modelled as `Option.none`).  The external `culori`
OKLCH-to-sRGB conversion is not part of this repository; following the
specification ("any correct OKLCH-to-sRGB conversion routine suffices") the
resolver is parameterized over an abstract conversion function.
-/

namespace KumoColor

/-- Whitespace characters recognized by JavaScript `trim`/`\s` (restricted to
the ASCII whitespace that can occur here). -/
def jsIsWs (c : Char) : Bool :=
  c == ' ' || c == '\t' || c == '\n' || c == '\r' || c == '\x0b' || c == '\x0c'

/-- JavaScript `String.prototype.trimStart` on character lists. -/
def trimStartL (cs : List Char) : List Char := cs.dropWhile jsIsWs

/-- JavaScript `String.prototype.trimEnd` on character lists. -/
def trimEndL (cs : List Char) : List Char := (cs.reverse.dropWhile jsIsWs).reverse

/-- JavaScript `String.prototype.trim` on character lists. -/
def trimL (cs : List Char) : List Char := trimEndL (trimStartL cs)

/-- JavaScript `String.prototype.startsWith pat s` on character lists
(`startsWithL pat s` is `s.startsWith(pat)`). -/
def startsWithL : List Char → List Char → Bool
  | [], _ => true
  | _ :: _, [] => false
  | p :: ps, c :: cs => p == c && startsWithL ps cs

/-- JavaScript `String.prototype.endsWith pat s` on character lists. -/
def endsWithL (pat s : List Char) : Bool := startsWithL pat.reverse s.reverse

/-- Characters matched by the regex character class `[0-9.]`. -/
def isNumChar (c : Char) : Bool := c.isDigit || c == '.'

/-- The numeric value of a digit string (used by the `parseFloat` model). -/
def digitsVal (ds : List Char) : Nat :=
  ds.foldl (fun acc d => acc * 10 + (d.toNat - 48)) 0

/-- Model of JavaScript `parseFloat`, restricted to the token alphabet
`[0-9.%]` that the regex groups of `color-utils.ts` can produce (no signs,
exponents or leading whitespace occur there).  `none` models `NaN`; values are
exact rationals rather than IEEE doubles. -/
def jsParseFloat (cs : List Char) : Option ℚ :=
  let ip := cs.takeWhile Char.isDigit
  let rest := cs.drop ip.length
  match rest with
  | '.' :: rest2 =>
    let fp := rest2.takeWhile Char.isDigit
    if ip.isEmpty && fp.isEmpty then none
    else some ((digitsVal ip : ℚ) + (digitsVal fp : ℚ) / (10 : ℚ) ^ fp.length)
  | _ => if ip.isEmpty then none else some (digitsVal ip)

/-- Hexadecimal digit, case-insensitive (regex `[0-9a-f]` with the `i` flag;
the ranges are the code points of `0`-`9`, `a`-`f` and `A`-`F`). -/
def isHexDigitChar (c : Char) : Bool :=
  (48 ≤ c.toNat && c.toNat ≤ 57) || (97 ≤ c.toNat && c.toNat ≤ 102) ||
    (65 ≤ c.toNat && c.toNat ≤ 70)

/-- The value of one hexadecimal digit (as consumed by `parseInt(_, 16)`). -/
def hexDigitVal (c : Char) : Nat :=
  if 48 ≤ c.toNat ∧ c.toNat ≤ 57 then c.toNat - 48
  else if 97 ≤ c.toNat ∧ c.toNat ≤ 102 then c.toNat - 97 + 10
  else if 65 ≤ c.toNat ∧ c.toNat ≤ 70 then c.toNat - 65 + 10
  else 0

/-- `Math.max(0, Math.min(1, x))` on rationals. -/
def qclamp (x : ℚ) : ℚ := max 0 (min 1 x)

/-- Figma color record produced by the resolver.  `r`, `g`, `b` are the
clamped channels; `a` is absent (`none`) when no explicit alpha was given,
and otherwise holds the parsed alpha (`some none` models an alpha token that
parses to `NaN`). -/
structure FigmaColor where
  r : ℚ
  g : ℚ
  b : ℚ
  a : Option (Option ℚ)
deriving DecidableEq

/-- The five `throw` sites of `color-utils.ts`, with their interpolated
message payloads. -/
inductive ColorError where
  /-- "Cannot resolve CSS variable without fallback: ${value}" -/
  | cannotResolveVar (value : String)
  /-- "Invalid OKLCH format: ${oklchString}" -/
  | invalidOklch (s : String)
  /-- "Failed to convert OKLCH to RGB: ${oklchString}" -/
  | failedConversion (s : String)
  /-- "Invalid hex color: ${hex}" -/
  | invalidHex (hex : String)
  /-- "Unsupported color format: ${value}" -/
  | unsupported (value : String)
deriving DecidableEq

/-- Abstract OKLCH-to-sRGB conversion (the external `culori` `rgb` call).
It receives the parsed (possibly-`NaN`) lightness, chroma and hue and either
fails (the `!rgbColor` branch) or yields channel values. -/
abbrev OklchConv := Option ℚ → Option ℚ → Option ℚ → Option (ℚ × ℚ × ℚ)

/-- The depth-tracking scan of `extractCssVarFallback`: find the first comma
at parenthesis depth 1 and return the characters after it (recording the
suffix after the separator comma is equivalent to recording its index, which
is all the index is used for). -/
def findFallbackAfterComma : List Char → Int → Option (List Char)
  | [], _ => none
  | c :: rest, depth =>
    if c = '(' then findFallbackAfterComma rest (depth + 1)
    else if c = ')' then findFallbackAfterComma rest (depth - 1)
    else if c = ',' ∧ depth = 1 then some rest
    else findFallbackAfterComma rest depth

/-- `extractCssVarFallback` from `color-utils.ts`: confirm the `var(` prefix
and trailing `)`, scan for the first depth-1 comma, and return the trimmed
text between that comma and the final closing parenthesis (`slice(commaIndex
+ 1, end.length - 1)` is `dropLast` of the suffix after the comma). -/
def extractCssVarFallback (value : List Char) : Option (List Char) :=
  let s := trimL value
  if startsWithL ("var(".data) s then
    let e := trimEndL s
    if endsWithL (")".data) e then
      match findFallbackAfterComma e 0 with
      | none => none
      | some rest => some (trimL rest.dropLast)
    else none
  else none

/-- One attempt of the OKLCH regex
`oklch\(\s*([0-9.]+%?)\s+([0-9.]+)\s+([0-9.]+)\s*(?:\/\s*([0-9.]+))?\s*\)`
at the current position.  The character classes `[0-9.]`, `%`, `\s`, `/` and
`)` are pairwise disjoint, so greedy maximal munch with no backtracking is
exact here. -/
def matchOklchAt (cs : List Char) :
    Option (List Char × List Char × List Char × Option (List Char)) :=
  if startsWithL ("oklch(".data) cs then
    let r0 := (cs.drop 6).dropWhile jsIsWs
    let t1n := r0.takeWhile isNumChar
    if t1n.isEmpty then none
    else
      let r1 := r0.dropWhile isNumChar
      let (t1, r2) :=
        match r1 with
        | '%' :: r => (t1n ++ ['%'], r)
        | _ => (t1n, r1)
      match r2 with
      | c2 :: _ =>
        if jsIsWs c2 then
          let r3 := r2.dropWhile jsIsWs
          let t2 := r3.takeWhile isNumChar
          if t2.isEmpty then none
          else
            let r4 := r3.dropWhile isNumChar
            match r4 with
            | c4 :: _ =>
              if jsIsWs c4 then
                let r5 := r4.dropWhile jsIsWs
                let t3 := r5.takeWhile isNumChar
                if t3.isEmpty then none
                else
                  let r6 := r5.dropWhile isNumChar
                  let r7 := r6.dropWhile jsIsWs
                  match r7 with
                  | '/' :: r8 =>
                    let r9 := r8.dropWhile jsIsWs
                    let t4 := r9.takeWhile isNumChar
                    if t4.isEmpty then none
                    else
                      let r10 := r9.dropWhile isNumChar
                      let r11 := r10.dropWhile jsIsWs
                      match r11 with
                      | ')' :: _ => some (t1, t2, t3, some t4)
                      | _ => none
                  | ')' :: _ => some (t1, t2, t3, none)
                  | _ => none
              else none
            | [] => none
          else none
      | [] => none
  else none

/-- Unanchored regex search (JavaScript `String.prototype.match` without the
`g` flag): try the pattern at each position left to right and return the
groups of the first match. -/
def oklchSearch : List Char →
    Option (List Char × List Char × List Char × Option (List Char))
  | [] => none
  | c :: rest =>
    match matchOklchAt (c :: rest) with
    | some g => some g
    | none => oklchSearch rest

/-- `convertOklchToFigma` from `color-utils.ts`, parameterized over the
external conversion: match the OKLCH regex, parse the groups, divide a
`%`-suffixed lightness by 100, convert, clamp each RGB channel into `[0,1]`,
and attach the (unclamped) alpha when the alpha group participated. -/
def convertOklchToFigma (conv : OklchConv) (oklchString : List Char) :
    Except ColorError FigmaColor :=
  match oklchSearch oklchString with
  | none => .error (.invalidOklch (String.mk oklchString))
  | some (lightnessStr, chromaStr, hueStr, alphaStr) =>
    let lightness :=
      if lightnessStr.contains '%' then (jsParseFloat lightnessStr).map (fun q => q / 100)
      else jsParseFloat lightnessStr
    let chroma := jsParseFloat chromaStr
    let hue := jsParseFloat hueStr
    let alpha : Option (Option ℚ) := alphaStr.map jsParseFloat
    match conv lightness chroma hue with
    | none => .error (.failedConversion (String.mk oklchString))
    | some (r, g, b) =>
      .ok { r := qclamp r, g := qclamp g, b := qclamp b, a := alpha }

/-- `convertHexToFigma` from `color-utils.ts`: expand shorthand 3-digit hex
by duplicating each digit, require `#` plus exactly 6 case-insensitive hex
digits, and divide each 2-digit pair's base-16 value by 255. -/
def convertHexToFigma (hex : List Char) : Except ColorError FigmaColor :=
  let normalized :=
    match hex with
    | ['#', a, b, c] =>
      if isHexDigitChar a && isHexDigitChar b && isHexDigitChar c then
        ['#', a, a, b, b, c, c]
      else hex
    | _ => hex
  match normalized with
  | ['#', d1, d2, d3, d4, d5, d6] =>
    if isHexDigitChar d1 && isHexDigitChar d2 && isHexDigitChar d3 &&
        isHexDigitChar d4 && isHexDigitChar d5 && isHexDigitChar d6 then
      .ok { r := ((hexDigitVal d1 * 16 + hexDigitVal d2 : ℕ) : ℚ) / 255,
            g := ((hexDigitVal d3 * 16 + hexDigitVal d4 : ℕ) : ℚ) / 255,
            b := ((hexDigitVal d5 * 16 + hexDigitVal d6 : ℕ) : ℚ) / 255,
            a := none }
    else .error (.invalidHex (String.mk hex))
  | _ => .error (.invalidHex (String.mk hex))

/-- `resolveColor` from `color-utils.ts`, fueled so that every definition in
this development is executable.  Fuel `value.length + 1` always suffices
(`resolveFuel_eq_of_lt` below); the fuel-0 branch is unreachable then.  The
JavaScript truthiness test `if (!fallback)` rejects both `null` and the empty
string, hence the two error cases in the `var(` branch. -/
def resolveFuel (conv : OklchConv) : Nat → List Char → Except ColorError FigmaColor
  | 0, value => .error (.unsupported (String.mk value))
  | n + 1, value =>
    let trimmed := trimL value
    if trimmed = "transparent".data then
      .ok { r := 0, g := 0, b := 0, a := some (some 0) }
    else if startsWithL ("var(".data) trimmed then
      match extractCssVarFallback trimmed with
      | none => .error (.cannotResolveVar (String.mk value))
      | some fb =>
        if fb = [] then .error (.cannotResolveVar (String.mk value))
        else resolveFuel conv n fb
    else if startsWithL ("oklch(".data) trimmed then
      convertOklchToFigma conv trimmed
    else if startsWithL ("#".data) trimmed then
      convertHexToFigma trimmed
    else .error (.unsupported (String.mk value))

/-- `resolveColor` on character lists. -/
def resolveColorL (conv : OklchConv) (value : List Char) : Except ColorError FigmaColor :=
  resolveFuel conv (value.length + 1) value

/-- `resolveColor` on strings. -/
def resolveColor (conv : OklchConv) (value : String) : Except ColorError FigmaColor :=
  resolveColorL conv value.data

/-- A sample conversion routine (used to instantiate the abstract `culori`
conversion in concrete evaluations). -/
def sampleConv : OklchConv := fun _ _ _ => some (0, 0, 0)

/-- A sample conversion routine returning out-of-gamut channel values. -/
def outOfGamutConv : OklchConv := fun _ _ _ => some (2, -1, 5)

/-- Modelled from the spec: the explicit alpha a color expression specifies —
`some (some 0)` for the literal `transparent`, the parsed `/ A` token for an
OKLCH expression with an alpha clause, following `var()` fallback resolution,
and `none` (no explicit alpha) otherwise.  Fueled exactly like the resolver. -/
def explicitAlphaFuel : Nat → List Char → Option (Option ℚ)
  | 0, _ => none
  | n + 1, value =>
    let trimmed := trimL value
    if trimmed = "transparent".data then some (some 0)
    else if startsWithL ("var(".data) trimmed then
      match extractCssVarFallback trimmed with
      | none => none
      | some fb => if fb = [] then none else explicitAlphaFuel n fb
    else if startsWithL ("oklch(".data) trimmed then
      match oklchSearch trimmed with
      | some (_, _, _, some t) => some (jsParseFloat t)
      | _ => none
    else none

/-- The explicit alpha specified by a color expression (see
`explicitAlphaFuel`). -/
def explicitAlphaOf (value : List Char) : Option (Option ℚ) :=
  explicitAlphaFuel (value.length + 1) value

/-- Whether a color expression specifies an explicit alpha: it is the literal
`transparent` or an OKLCH expression with a `/ A` clause, following `var()`
fallback resolution. -/
def hasExplicitAlpha (value : List Char) : Bool :=
  (explicitAlphaOf value).isSome

instance decEqExceptColor : DecidableEq (Except ColorError FigmaColor) := fun x y =>
  match x, y with
  | .ok a, .ok b =>
    if h : a = b then .isTrue (by rw [h])
    else .isFalse (fun he => h (by injection he))
  | .error a, .error b =>
    if h : a = b then .isTrue (by rw [h])
    else .isFalse (fun he => h (by injection he))
  | .ok _, .error _ => .isFalse (fun he => by injection he)
  | .error _, .ok _ => .isFalse (fun he => by injection he)

/-! ### Length bounds and the shrinking of the extracted fallback -/

theorem trimStartL_length_le (cs : List Char) : (trimStartL cs).length ≤ cs.length :=
  (List.dropWhile_suffix jsIsWs).length_le

theorem trimEndL_eq_rdropWhile (cs : List Char) : trimEndL cs = cs.rdropWhile jsIsWs := rfl

theorem trimEndL_length_le (cs : List Char) : (trimEndL cs).length ≤ cs.length := by
  rw [trimEndL_eq_rdropWhile]
  exact (List.rdropWhile_prefix jsIsWs cs).length_le

theorem trimL_length_le (cs : List Char) : (trimL cs).length ≤ cs.length :=
  le_trans (trimEndL_length_le _) (trimStartL_length_le _)

theorem findFallbackAfterComma_some_length {l : List Char} {d : Int} {rest : List Char}
    (h : findFallbackAfterComma l d = some rest) : rest.length < l.length := by
  induction l generalizing d with
  | nil => simp [findFallbackAfterComma] at h
  | cons c l ih =>
    rw [findFallbackAfterComma] at h
    split at h
    · exact lt_trans (ih h) (by simp)
    · split at h
      · exact lt_trans (ih h) (by simp)
      · split at h
        · cases h; simp
        · exact lt_trans (ih h) (by simp)

theorem extractCssVarFallback_some_length {cs fb : List Char}
    (h : extractCssVarFallback cs = some fb) : fb.length < cs.length := by
  simp only [extractCssVarFallback] at h
  split at h
  · split at h
    · split at h
      · exact absurd h (by simp)
      · rename_i rest hrest
        have h1 : fb.length ≤ rest.dropLast.length := by
          cases h
          exact trimL_length_le _
        have h2 : rest.dropLast.length ≤ rest.length := by
          rw [List.length_dropLast]; omega
        have h3 := findFallbackAfterComma_some_length hrest
        have h4 := trimEndL_length_le (trimL cs)
        have h5 := trimL_length_le cs
        omega
    · exact absurd h (by simp)
  · exact absurd h (by simp)

/-! ### Character and trimming helper lemmas -/

theorem jsIsWs_toNat_le {c : Char} (h : jsIsWs c = true) : c.toNat ≤ 32 := by
  simp only [jsIsWs, Bool.or_eq_true, beq_iff_eq] at h
  rcases h with ((((h | h) | h) | h) | h) | h <;> subst h <;> decide

theorem not_jsIsWs_of_toNat_ge {c : Char} (h : 33 ≤ c.toNat) : jsIsWs c = false := by
  by_cases hw : jsIsWs c = true
  · exact absurd (jsIsWs_toNat_le hw) (by omega)
  · simpa using hw

theorem isHexDigitChar_not_ws {c : Char} (h : isHexDigitChar c = true) : jsIsWs c = false := by
  simp only [isHexDigitChar, Bool.or_eq_true, Bool.and_eq_true, decide_eq_true_eq] at h
  exact not_jsIsWs_of_toNat_ge (by omega)

theorem hexDigitVal_le_15 (c : Char) : hexDigitVal c ≤ 15 := by
  rw [hexDigitVal]
  split
  · omega
  · split
    · omega
    · split
      · omega
      · omega

theorem startsWithL_cons_of_ne {p c : Char} (ps cs : List Char) (hp : p ≠ c) :
    startsWithL (p :: ps) (c :: cs) = false := by
  simp [startsWithL, hp]

theorem startsWithL_append_self (p r : List Char) : startsWithL p (p ++ r) = true := by
  induction p with
  | nil => simp [startsWithL]
  | cons c cs ih => simp [startsWithL, ih]

theorem trimStartL_cons_of_not_ws {c : Char} (l : List Char) (h : jsIsWs c = false) :
    trimStartL (c :: l) = c :: l := by
  rw [trimStartL, List.dropWhile_cons_of_neg (by simp [h])]

theorem trimEndL_concat_of_not_ws (l : List Char) {c : Char} (h : jsIsWs c = false) :
    trimEndL (l ++ [c]) = l ++ [c] := by
  rw [trimEndL_eq_rdropWhile]
  exact List.rdropWhile_concat_neg _ _ _ (by simp [h])

theorem trimL_cons_concat (a : Char) (mid : List Char) (b : Char)
    (ha : jsIsWs a = false) (hb : jsIsWs b = false) :
    trimL (a :: (mid ++ [b])) = a :: (mid ++ [b]) := by
  rw [trimL, trimStartL_cons_of_not_ws _ ha,
    show a :: (mid ++ [b]) = (a :: mid) ++ [b] from by simp,
    trimEndL_concat_of_not_ws _ hb]

theorem trimStartL_cons_of_ws {c : Char} (l : List Char) (h : jsIsWs c = true) :
    trimStartL (c :: l) = trimStartL l := by
  rw [trimStartL, trimStartL, List.dropWhile_cons_of_pos (by simp [h])]

theorem trimL_cons_of_ws {c : Char} (l : List Char) (h : jsIsWs c = true) :
    trimL (c :: l) = trimL l := by
  rw [trimL, trimL, trimStartL_cons_of_ws _ h]

theorem trimL_eq_nil_of_all_ws {l : List Char} (h : ∀ c ∈ l, jsIsWs c = true) :
    trimL l = [] := by
  have h1 : trimStartL l = [] := by
    rw [trimStartL, List.dropWhile_eq_nil_iff]
    intro x hx
    simp [h x hx]
  rw [trimL, h1]
  rfl

/-! ### Stepping lemmas for the depth-tracking comma scan -/

theorem findFallbackAfterComma_cons_other {c : Char} (rest : List Char) (d : Int)
    (h1 : c ≠ '(') (h2 : c ≠ ')') (h3 : c ≠ ',') :
    findFallbackAfterComma (c :: rest) d = findFallbackAfterComma rest d := by
  rw [findFallbackAfterComma, if_neg h1, if_neg h2, if_neg (by tauto)]

theorem findFallbackAfterComma_cons_open (rest : List Char) (d : Int) :
    findFallbackAfterComma ('(' :: rest) d = findFallbackAfterComma rest (d + 1) := by
  rw [findFallbackAfterComma]; simp

theorem findFallbackAfterComma_cons_comma_depth1 (rest : List Char) :
    findFallbackAfterComma (',' :: rest) 1 = some rest := by
  rw [findFallbackAfterComma]; simp

theorem findFallbackAfterComma_append_skip {l : List Char}
    (h : ∀ c ∈ l, c ≠ '(' ∧ c ≠ ')' ∧ c ≠ ',') (rest : List Char) (d : Int) :
    findFallbackAfterComma (l ++ rest) d = findFallbackAfterComma rest d := by
  induction l with
  | nil => rfl
  | cons c t ih =>
    have hc := h c (by simp)
    rw [List.cons_append,
      findFallbackAfterComma_cons_other _ _ hc.1 hc.2.1 hc.2.2]
    exact ih (fun x hx => h x (by simp [hx]))

/-! ### Fuel adequacy: fuel `value.length + 1` computes the fixed point -/

theorem resolveFuel_eq_of_lt (conv : OklchConv) :
    ∀ (n : Nat) (value : List Char), value.length < n →
      resolveFuel conv n value = resolveColorL conv value := by
  intro n
  induction n using Nat.strong_induction_on with
  | _ n ih =>
    intro value hlt
    match n, hlt with
    | n + 1, hlt =>
      rw [resolveColorL, resolveFuel, resolveFuel]
      split
      · rfl
      · split
        · split
          · rfl
          · rename_i fb hfb
            split
            · rfl
            · have hshrink : fb.length < value.length :=
                lt_of_lt_of_le (extractCssVarFallback_some_length hfb) (trimL_length_le value)
              rw [ih n (Nat.lt_succ_self n) fb (by omega), ih value.length hlt fb hshrink]
        · rfl

/-! ### Trimmed strings are fixed points of the trimming functions -/

theorem dropWhile_eq_self_of_length {p : Char → Bool} {l : List Char}
    (h : (l.dropWhile p).length = l.length) : l.dropWhile p = l :=
  (List.dropWhile_suffix p).eq_of_length h

theorem trimStartL_eq_self_of_trimL {l : List Char} (h : trimL l = l) :
    trimStartL l = l := by
  have h1 : (trimEndL (trimStartL l)).length ≤ (trimStartL l).length :=
    trimEndL_length_le _
  have h2 : (trimStartL l).length ≤ l.length := trimStartL_length_le _
  have h3 : (trimEndL (trimStartL l)).length = l.length := by
    rw [show trimEndL (trimStartL l) = l from h]
  apply dropWhile_eq_self_of_length
  show (trimStartL l).length = l.length
  omega

theorem trimEndL_eq_self_of_trimL {l : List Char} (h : trimL l = l) :
    trimEndL l = l := by
  have h1 := trimStartL_eq_self_of_trimL h
  rw [trimL, h1] at h
  exact h

theorem startsWithL_cons_shape {p : Char} {ps cs : List Char}
    (h : startsWithL (p :: ps) cs = true) : ∃ t, cs = p :: t := by
  cases cs with
  | nil => simp [startsWithL] at h
  | cons c t =>
    simp only [startsWithL, Bool.and_eq_true, beq_iff_eq] at h
    exact ⟨t, by rw [h.1]⟩

/-! ### Claim C9: the extracted fallback is strictly shorter, so resolution
terminates (fuel `value.length + 1` computes the fixed point) -/

/-- C9: `resolve` terminates on every input: the fallback extracted for the
`var()` recursion is always strictly shorter than its input, and consequently
the fueled resolver is fuel-irrelevant above `value.length`, i.e. the
embedding is a total function of the input string. -/
theorem resolveColor_terminates :
    (∀ (cs fb : List Char), extractCssVarFallback cs = some fb →
      fb.length < cs.length) ∧
    (∀ (conv : OklchConv) (n : Nat) (value : List Char), value.length < n →
      resolveFuel conv n value = resolveColorL conv value) :=
  ⟨fun _ _ h => extractCssVarFallback_some_length h,
   fun conv n value h => resolveFuel_eq_of_lt conv n value h⟩

/-- Witness for C9 at the concrete input `var(--x, #fff)`. -/
theorem resolveColor_terminates_witness :
    extractCssVarFallback ("var(--x, #fff)".data) = some ("#fff".data) ∧
    ("#fff".data).length < ("var(--x, #fff)".data).length ∧
    resolveFuel sampleConv 100 ("var(--x, #fff)".data) =
      resolveColorL sampleConv ("var(--x, #fff)".data) :=
  ⟨by decide,
   resolveColor_terminates.1 ("var(--x, #fff)".data) ("#fff".data) (by decide),
   resolveColor_terminates.2 sampleConv 100 ("var(--x, #fff)".data) (by decide)⟩

/-! ### Claim C8: `var()` without a fallback fails with the no-fallback error -/

/-- C8: for every trimmed input starting with `var(` that has no fallback —
it does not end with a closing parenthesis, or the depth-tracking scan finds
no comma at parenthesis depth 1 — `resolve` fails with the
`Cannot resolve CSS variable without fallback` error naming the input. -/
theorem resolveColor_var_no_fallback_error (conv : OklchConv) (value : List Char)
    (htrim : trimL value = value)
    (hvar : startsWithL ("var(".data) value = true)
    (hnofb : endsWithL (")".data) value = false ∨
      findFallbackAfterComma value 0 = none) :
    resolveColorL conv value = .error (.cannotResolveVar (String.mk value)) := by
  obtain ⟨t, hshape⟩ := startsWithL_cons_shape hvar
  have hextract : extractCssVarFallback value = none := by
    simp only [extractCssVarFallback, htrim, trimEndL_eq_self_of_trimL htrim, hvar,
      if_true]
    rcases hnofb with h | h
    · simp [h]
    · simp [h]
  have hnt : value ≠ "transparent".data := by
    rw [hshape]; simp
  rw [resolveColorL, resolveFuel]
  simp only [htrim, if_neg hnt, hvar, if_true, hextract]

/-- Witness for C8 at the concrete input `var(--x)`. -/
theorem resolveColor_var_no_fallback_error_witness :
    trimL ("var(--x)".data) = "var(--x)".data ∧
    startsWithL ("var(".data) ("var(--x)".data) = true ∧
    findFallbackAfterComma ("var(--x)".data) 0 = none ∧
    resolveColorL sampleConv ("var(--x)".data) =
      .error (.cannotResolveVar (String.mk "var(--x)".data)) :=
  ⟨by decide, by decide, by decide,
   resolveColor_var_no_fallback_error sampleConv ("var(--x)".data) (by decide)
     (by decide) (Or.inr (by decide))⟩

/-! ### Claim C4: a non-matching `oklch(` expression fails with the invalid
OKLCH error -/

/-- C4: for every trimmed input starting with `oklch(` on which the OKLCH
regex search fails, `resolve` fails with the `Invalid OKLCH format` error
naming the input string. -/
theorem resolveColor_invalidOklch_of_no_match (conv : OklchConv) (value : List Char)
    (htrim : trimL value = value)
    (hoklch : startsWithL ("oklch(".data) value = true)
    (hnomatch : oklchSearch value = none) :
    resolveColorL conv value = .error (.invalidOklch (String.mk value)) := by
  obtain ⟨t, hshape⟩ := startsWithL_cons_shape hoklch
  have hnt : value ≠ "transparent".data := by
    rw [hshape]; simp
  have hnv : startsWithL ("var(".data) value = false := by
    rw [hshape]; exact startsWithL_cons_of_ne _ _ (by decide)
  rw [resolveColorL, resolveFuel]
  simp only [htrim, if_neg hnt, hnv, Bool.false_eq_true, if_false, hoklch, if_true,
    convertOklchToFigma, hnomatch]

/-! ### Computation of the resolver on `var(--name, …)` wrappings -/

theorem trimL_var_wrap (n mid : List Char) :
    trimL ('v' :: 'a' :: 'r' :: '(' :: '-' :: '-' :: (n ++ ',' :: (mid ++ [')']))) =
      'v' :: 'a' :: 'r' :: '(' :: '-' :: '-' :: (n ++ ',' :: (mid ++ [')'])) := by
  rw [show ('v' :: 'a' :: 'r' :: '(' :: '-' :: '-' :: (n ++ ',' :: (mid ++ [')'])))
      = 'v' :: (('a' :: 'r' :: '(' :: '-' :: '-' :: (n ++ ',' :: mid)) ++ [')'])
    from by simp]
  exact trimL_cons_concat _ _ _ (by decide) (by decide)

theorem extractCssVarFallback_var_wrap (n mid : List Char)
    (hn : ∀ c ∈ n, c ≠ '(' ∧ c ≠ ')' ∧ c ≠ ',') :
    extractCssVarFallback
        ('v' :: 'a' :: 'r' :: '(' :: '-' :: '-' :: (n ++ ',' :: (mid ++ [')']))) =
      some (trimL mid) := by
  have htrim := trimL_var_wrap n mid
  have hends : endsWithL (")".data)
      ('v' :: 'a' :: 'r' :: '(' :: '-' :: '-' :: (n ++ ',' :: (mid ++ [')']))) = true := by
    rw [endsWithL,
      show ('v' :: 'a' :: 'r' :: '(' :: '-' :: '-' :: (n ++ ',' :: (mid ++ [')'])))
        = ('v' :: 'a' :: 'r' :: '(' :: '-' :: '-' :: (n ++ ',' :: mid)) ++ [')']
      from by simp,
      List.reverse_append]
    simp [startsWithL]
  have hfind : findFallbackAfterComma
      ('v' :: 'a' :: 'r' :: '(' :: '-' :: '-' :: (n ++ ',' :: (mid ++ [')']))) 0 =
        some (mid ++ [')']) := by
    rw [findFallbackAfterComma_cons_other _ _ (by decide) (by decide) (by decide),
      findFallbackAfterComma_cons_other _ _ (by decide) (by decide) (by decide),
      findFallbackAfterComma_cons_other _ _ (by decide) (by decide) (by decide),
      findFallbackAfterComma_cons_open,
      findFallbackAfterComma_cons_other _ _ (by decide) (by decide) (by decide),
      findFallbackAfterComma_cons_other _ _ (by decide) (by decide) (by decide),
      findFallbackAfterComma_append_skip hn]
    exact findFallbackAfterComma_cons_comma_depth1 (mid ++ [')'])
  simp only [extractCssVarFallback, htrim, trimEndL_eq_self_of_trimL htrim]
  rw [if_pos (by simp [startsWithL]), if_pos hends, hfind]
  simp

/-! ### Claim C1 (amended): `var(--name, e)` resolves like `e` -/

/-- C1 (amended): wrapping a color expression `e` that is nonempty and free
of leading/trailing whitespace as the fallback of a `var()` reference —
`var(--n, e)` for any variable name `n` containing no comma and no
parenthesis — resolves to exactly the result of resolving `e`: the fallback
is split at the first comma at parenthesis depth 1 (commas inside a nested
`oklch(...)` or `var(...)` cannot be mistaken for the separator because the
name contains none and the separator precedes the fallback), the text
between that comma and the final closing parenthesis is trimmed and
recursively resolved, and its result (value or failure) is propagated. -/
theorem resolveColor_var_wrap_eq (conv : OklchConv) (n e : List Char)
    (hn : ∀ c ∈ n, c ≠ '(' ∧ c ≠ ')' ∧ c ≠ ',')
    (he : trimL e = e) (hne : e ≠ []) :
    resolveColorL conv ("var(--".data ++ n ++ ", ".data ++ e ++ ")".data) =
      resolveColorL conv e := by
  have hv : ("var(--".data ++ n ++ ", ".data ++ e ++ ")".data)
      = 'v' :: 'a' :: 'r' :: '(' :: '-' :: '-' :: (n ++ ',' :: ((' ' :: e) ++ [')'])) := by
    rw [show ("var(--".data : List Char) = ['v', 'a', 'r', '(', '-', '-'] from rfl,
      show ((", ".data : List Char)) = [',', ' '] from rfl,
      show ((")".data : List Char)) = [')'] from rfl]
    simp
  rw [hv, resolveColorL, resolveFuel]
  have htrim := trimL_var_wrap n (' ' :: e)
  have hfb : trimL (' ' :: e) = e := by
    rw [trimL_cons_of_ws _ (by decide), he]
  simp only [htrim]
  rw [if_neg (by simp), if_pos (by simp [startsWithL]),
    extractCssVarFallback_var_wrap n (' ' :: e) hn, hfb]
  simp only [hne, if_false]
  exact resolveFuel_eq_of_lt conv _ e (by simp; omega)

/-- Witness for C1 at the nested input `var(--x, var(--y, #000))` (which
recurses twice and yields black). -/
theorem resolveColor_var_wrap_eq_witness :
    trimL ("var(--y, #000)".data) = "var(--y, #000)".data ∧
    resolveColorL sampleConv
        ("var(--".data ++ "x".data ++ ", ".data ++ "var(--y, #000)".data ++ ")".data) =
      resolveColorL sampleConv ("var(--y, #000)".data) ∧
    resolveColorL sampleConv ("var(--y, #000)".data) =
      .ok { r := ((0 : ℕ) : ℚ) / 255, g := ((0 : ℕ) : ℚ) / 255,
            b := ((0 : ℕ) : ℚ) / 255, a := none } :=
  ⟨by decide,
   resolveColor_var_wrap_eq sampleConv ("x".data) ("var(--y, #000)".data)
     (by decide) (by decide) (by decide),
   rfl⟩

/-- C1 counterexample: as literally stated the claim fails for a fallback
expression carrying surrounding whitespace, because the resolver names the
*trimmed* fallback in its failure while resolving the bare expression names
the untrimmed input: `var(--x,  rgb )` and ` rgb ` both fail with the
unsupported-format error, but with different payloads. -/
theorem resolveColor_var_wrap_ne_of_untrimmed :
    resolveColor sampleConv "var(--x,  rgb )" = .error (.unsupported "rgb") ∧
    resolveColor sampleConv " rgb " = .error (.unsupported " rgb ") ∧
    resolveColor sampleConv "var(--x,  rgb )" ≠ resolveColor sampleConv " rgb " :=
  ⟨rfl, rfl, by decide⟩

/-! ### Claim C10: an empty or whitespace-only fallback is treated as absent -/

/-- C10: for every input `var(--n,w)` whose fallback text `w` between the
depth-1 comma and the final closing parenthesis is empty or whitespace-only,
`resolve` fails with the same no-fallback error (`Cannot resolve CSS variable
without fallback`) as a `var()` reference with no comma at all, rather than
attempting to resolve an empty expression. -/
theorem resolveColor_ws_only_fallback_error (conv : OklchConv) (n w : List Char)
    (hn : ∀ c ∈ n, c ≠ '(' ∧ c ≠ ')' ∧ c ≠ ',')
    (hw : ∀ c ∈ w, jsIsWs c = true) :
    resolveColorL conv ("var(--".data ++ n ++ ",".data ++ w ++ ")".data) =
      .error (.cannotResolveVar
        (String.mk ("var(--".data ++ n ++ ",".data ++ w ++ ")".data))) := by
  have hv : ("var(--".data ++ n ++ ",".data ++ w ++ ")".data)
      = 'v' :: 'a' :: 'r' :: '(' :: '-' :: '-' :: (n ++ ',' :: (w ++ [')'])) := by
    rw [show ("var(--".data : List Char) = ['v', 'a', 'r', '(', '-', '-'] from rfl,
      show ((",".data : List Char)) = [','] from rfl,
      show ((")".data : List Char)) = [')'] from rfl]
    simp
  rw [hv, resolveColorL, resolveFuel]
  have htrim := trimL_var_wrap n w
  simp only [htrim]
  rw [if_neg (by simp), if_pos (by simp [startsWithL]),
    extractCssVarFallback_var_wrap n w hn, trimL_eq_nil_of_all_ws hw]
  simp

/-- Witness for C10 at the concrete input `var(--x,   )`. -/
theorem resolveColor_ws_only_fallback_error_witness :
    resolveColorL sampleConv
        ("var(--".data ++ "x".data ++ ",".data ++ "   ".data ++ ")".data) =
      .error (.cannotResolveVar
        (String.mk ("var(--".data ++ "x".data ++ ",".data ++ "   ".data ++ ")".data))) :=
  resolveColor_ws_only_fallback_error sampleConv ("x".data) ("   ".data)
    (by decide) (by decide)

/-! ### The alpha field and channel bounds of successful resolutions -/

theorem convertHexToFigma_ok_a {l : List Char} {c : FigmaColor}
    (h : convertHexToFigma l = .ok c) : c.a = none := by
  simp only [convertHexToFigma] at h
  split at h
  · split at h
    · injection h with h1
      rw [← h1]
    · exact absurd h (by simp)
  · exact absurd h (by simp)

theorem resolveFuel_a_eq_explicitAlphaFuel (conv : OklchConv) :
    ∀ (n : Nat) (value : List Char) (c : FigmaColor),
      resolveFuel conv n value = .ok c → c.a = explicitAlphaFuel n value := by
  intro n
  induction n with
  | zero => intro value c h; exact absurd h (by simp [resolveFuel])
  | succ n ih =>
    intro value c h
    rw [resolveFuel] at h
    rw [explicitAlphaFuel]
    by_cases h1 : trimL value = "transparent".data
    · rw [if_pos h1] at h
      rw [if_pos h1]
      injection h with h5
      rw [← h5]
    · rw [if_neg h1] at h ⊢
      by_cases h2 : startsWithL ("var(".data) (trimL value) = true
      · rw [if_pos h2] at h ⊢
        cases hfb : extractCssVarFallback (trimL value) with
        | none =>
          rw [hfb] at h
          exact absurd h (by simp)
        | some fb =>
          simp only [hfb] at h ⊢
          by_cases h3 : fb = []
          · rw [if_pos h3] at h; exact absurd h (by simp)
          · rw [if_neg h3] at h ⊢
            exact ih fb c h
      · rw [if_neg h2] at h ⊢
        by_cases h3 : startsWithL ("oklch(".data) (trimL value) = true
        · rw [if_pos h3] at h ⊢
          simp only [convertOklchToFigma] at h
          split at h
          · exact absurd h (by simp)
          · rename_i ls cstr hstr astr hsearch
            rw [hsearch]
            split at h
            · exact absurd h (by simp)
            · injection h with h5
              rw [← h5]
              cases astr with
              | none => rfl
              | some t => rfl
        · rw [if_neg h3] at h ⊢
          by_cases h4 : startsWithL ("#".data) (trimL value) = true
          · rw [if_pos h4] at h
            exact convertHexToFigma_ok_a h
          · rw [if_neg h4] at h
            exact absurd h (by simp)

theorem qclamp_nonneg (x : ℚ) : 0 ≤ qclamp x := le_max_left 0 _

theorem qclamp_le_one (x : ℚ) : qclamp x ≤ 1 :=
  max_le zero_le_one (min_le_left 1 x)

theorem hex_channel_bounds (d e : Char) :
    0 ≤ ((hexDigitVal d * 16 + hexDigitVal e : ℕ) : ℚ) / 255 ∧
      ((hexDigitVal d * 16 + hexDigitVal e : ℕ) : ℚ) / 255 ≤ 1 := by
  constructor
  · positivity
  · rw [div_le_one (by norm_num)]
    have hd := hexDigitVal_le_15 d
    have he := hexDigitVal_le_15 e
    have : (hexDigitVal d * 16 + hexDigitVal e : ℕ) ≤ 255 := by omega
    calc ((hexDigitVal d * 16 + hexDigitVal e : ℕ) : ℚ)
        ≤ ((255 : ℕ) : ℚ) := by exact_mod_cast this
      _ = 255 := by norm_num

theorem convertHexToFigma_ok_bounds {l : List Char} {c : FigmaColor}
    (h : convertHexToFigma l = .ok c) :
    (0 ≤ c.r ∧ c.r ≤ 1) ∧ (0 ≤ c.g ∧ c.g ≤ 1) ∧ (0 ≤ c.b ∧ c.b ≤ 1) := by
  simp only [convertHexToFigma] at h
  split at h
  · split at h
    · injection h with h1
      rw [← h1]
      exact ⟨hex_channel_bounds _ _, hex_channel_bounds _ _, hex_channel_bounds _ _⟩
    · exact absurd h (by simp)
  · exact absurd h (by simp)

theorem resolveFuel_channels_in_unit (conv : OklchConv) :
    ∀ (n : Nat) (value : List Char) (c : FigmaColor),
      resolveFuel conv n value = .ok c →
      (0 ≤ c.r ∧ c.r ≤ 1) ∧ (0 ≤ c.g ∧ c.g ≤ 1) ∧ (0 ≤ c.b ∧ c.b ≤ 1) := by
  intro n
  induction n with
  | zero => intro value c h; exact absurd h (by simp [resolveFuel])
  | succ n ih =>
    intro value c h
    rw [resolveFuel] at h
    by_cases h1 : trimL value = "transparent".data
    · rw [if_pos h1] at h
      injection h with h5
      rw [← h5]
      norm_num
    · rw [if_neg h1] at h
      by_cases h2 : startsWithL ("var(".data) (trimL value) = true
      · rw [if_pos h2] at h
        cases hfb : extractCssVarFallback (trimL value) with
        | none =>
          rw [hfb] at h
          exact absurd h (by simp)
        | some fb =>
          simp only [hfb] at h
          by_cases h3 : fb = []
          · rw [if_pos h3] at h; exact absurd h (by simp)
          · rw [if_neg h3] at h
            exact ih fb c h
      · rw [if_neg h2] at h
        by_cases h3 : startsWithL ("oklch(".data) (trimL value) = true
        · rw [if_pos h3] at h
          simp only [convertOklchToFigma] at h
          split at h
          · exact absurd h (by simp)
          · split at h
            · exact absurd h (by simp)
            · injection h with h5
              rw [← h5]
              exact ⟨⟨qclamp_nonneg _, qclamp_le_one _⟩, ⟨qclamp_nonneg _, qclamp_le_one _⟩,
                ⟨qclamp_nonneg _, qclamp_le_one _⟩⟩
        · rw [if_neg h3] at h
          by_cases h4 : startsWithL ("#".data) (trimL value) = true
          · rw [if_pos h4] at h
            exact convertHexToFigma_ok_bounds h
          · rw [if_neg h4] at h
            exact absurd h (by simp)

/-! ### Claim C2: all successfully resolved channels lie in `[0,1]` -/

/-- C2: for every conversion routine and every input string on which
`resolve` succeeds, each of the returned `r`, `g`, `b` channel values lies in
`[0,1]`; in particular an OKLCH conversion result outside the sRGB gamut is
clamped channelwise rather than wrapped or rejected. -/
theorem resolveColor_channels_in_unit (conv : OklchConv) (value : String)
    (c : FigmaColor) (h : resolveColor conv value = .ok c) :
    (0 ≤ c.r ∧ c.r ≤ 1) ∧ (0 ≤ c.g ∧ c.g ≤ 1) ∧ (0 ≤ c.b ∧ c.b ≤ 1) := by
  rw [resolveColor, resolveColorL] at h
  exact resolveFuel_channels_in_unit conv _ value.data c h

/-- Witness for C2: an out-of-gamut conversion result (channels 2, -1 and 5)
is clamped into the unit interval. -/
theorem resolveColor_channels_in_unit_witness :
    resolveColor outOfGamutConv "oklch(50% 0.3 200)" = .ok ⟨1, 0, 1, none⟩ ∧
    (0 ≤ (1 : ℚ) ∧ (1 : ℚ) ≤ 1) ∧ (0 ≤ (0 : ℚ) ∧ (0 : ℚ) ≤ 1) ∧
      (0 ≤ (1 : ℚ) ∧ (1 : ℚ) ≤ 1) :=
  ⟨rfl, resolveColor_channels_in_unit outOfGamutConv "oklch(50% 0.3 200)"
    ⟨1, 0, 1, none⟩ rfl⟩

/-! ### Claim C3 (amended): the alpha field is the unclamped explicit alpha -/

/-- C3 counterexample: the claim that a present `a` always lies in `[0,1]`
fails — `oklch(50% 0 0 / 2)` resolves successfully and its alpha token `2`
is propagated unclamped, so the output's `a` is greater than 1. -/
theorem resolveColor_alpha_gt_one :
    resolveColor sampleConv "oklch(50% 0 0 / 2)" = .ok ⟨0, 0, 0, some (some 2)⟩ ∧
      ¬ ((2 : ℚ) ≤ 1) :=
  ⟨rfl, by norm_num⟩

/-- C3 (amended): the `a` field of a successful resolution equals the
explicit alpha of the expression — `0` for `transparent`, the parsed alpha
token of an OKLCH alpha clause (unclamped, so it lies in `[0,1]` exactly
when the token's value does), following `var()` fallback resolution. -/
theorem resolveColor_alpha_eq_explicitAlpha (conv : OklchConv) (value : List Char)
    (c : FigmaColor) (h : resolveColorL conv value = .ok c) :
    c.a = explicitAlphaOf value := by
  rw [resolveColorL] at h
  exact resolveFuel_a_eq_explicitAlphaFuel conv _ value c h

/-- Witness for C3 at the concrete input `oklch(50% 0 0 / 2)`. -/
theorem resolveColor_alpha_eq_explicitAlpha_witness :
    resolveColorL sampleConv ("oklch(50% 0 0 / 2)".data) =
      .ok ⟨0, 0, 0, some (some 2)⟩ ∧
    FigmaColor.a ⟨0, 0, 0, some (some 2)⟩ =
      explicitAlphaOf ("oklch(50% 0 0 / 2)".data) :=
  ⟨rfl, resolveColor_alpha_eq_explicitAlpha sampleConv ("oklch(50% 0 0 / 2)".data)
    ⟨0, 0, 0, some (some 2)⟩ rfl⟩

/-! ### Claim C5: the alpha field is present exactly for explicit alpha -/

/-- C5: for every conversion routine and input on which `resolve` succeeds,
the output carries an `a` field if and only if the expression — after
trimming and `var()` fallback resolution — is the literal `transparent` or
an OKLCH expression with a `/ A` alpha clause (`hasExplicitAlpha`); hex
inputs and alpha-free OKLCH inputs yield no `a` field. -/
theorem resolveColor_alpha_present_iff_explicit (conv : OklchConv)
    (value : List Char) (c : FigmaColor) (h : resolveColorL conv value = .ok c) :
    c.a.isSome = hasExplicitAlpha value := by
  rw [hasExplicitAlpha, explicitAlphaOf, resolveColorL] at *
  rw [resolveFuel_a_eq_explicitAlphaFuel conv _ value c h]

/-- Witness for C5 at the concrete inputs `oklch(87% 0 0 / 0.8)` (alpha
present) — applying the theorem — together with the alpha-free hex check. -/
theorem resolveColor_alpha_present_iff_explicit_witness :
    resolveColorL sampleConv ("oklch(87% 0 0 / 0.8)".data) =
      .ok ⟨0, 0, 0, some (jsParseFloat ("0.8".data))⟩ ∧
    (FigmaColor.a ⟨0, 0, 0, some (jsParseFloat ("0.8".data))⟩).isSome =
      hasExplicitAlpha ("oklch(87% 0 0 / 0.8)".data) :=
  ⟨rfl, resolveColor_alpha_present_iff_explicit sampleConv
    ("oklch(87% 0 0 / 0.8)".data) ⟨0, 0, 0, some (jsParseFloat ("0.8".data))⟩ rfl⟩

/-! ### Claim C6: 6-digit hex colors -/

/-- C6: for every input `#` followed by exactly six case-insensitive hex
digits, `resolve` succeeds and returns the base-16 value of each 2-digit
pair divided by 255 as the `r`, `g`, `b` channels, with no `a` field. -/
theorem resolveColor_hex6 (conv : OklchConv) (d1 d2 d3 d4 d5 d6 : Char)
    (h1 : isHexDigitChar d1 = true) (h2 : isHexDigitChar d2 = true)
    (h3 : isHexDigitChar d3 = true) (h4 : isHexDigitChar d4 = true)
    (h5 : isHexDigitChar d5 = true) (h6 : isHexDigitChar d6 = true) :
    resolveColorL conv ['#', d1, d2, d3, d4, d5, d6] =
      .ok { r := ((hexDigitVal d1 * 16 + hexDigitVal d2 : ℕ) : ℚ) / 255,
            g := ((hexDigitVal d3 * 16 + hexDigitVal d4 : ℕ) : ℚ) / 255,
            b := ((hexDigitVal d5 * 16 + hexDigitVal d6 : ℕ) : ℚ) / 255,
            a := none } := by
  have htrim : trimL ['#', d1, d2, d3, d4, d5, d6] = ['#', d1, d2, d3, d4, d5, d6] := by
    rw [show (['#', d1, d2, d3, d4, d5, d6] : List Char)
        = '#' :: ([d1, d2, d3, d4, d5] ++ [d6]) from rfl]
    exact trimL_cons_concat _ _ _ (by decide) (isHexDigitChar_not_ws h6)
  rw [resolveColorL, resolveFuel]
  simp only [htrim]
  rw [if_neg (by simp), if_neg (by rw [startsWithL_cons_of_ne _ _ (by decide)]; simp),
    if_neg (by rw [startsWithL_cons_of_ne _ _ (by decide)]; simp),
    if_pos (by simp [startsWithL])]
  simp only [convertHexToFigma]
  simp [h1, h2, h3, h4, h5, h6]

/-- Witness for C6 at the concrete input `#f6821f`. -/
theorem resolveColor_hex6_witness :
    resolveColorL sampleConv ['#', 'f', '6', '8', '2', '1', 'f'] =
      .ok { r := ((hexDigitVal 'f' * 16 + hexDigitVal '6' : ℕ) : ℚ) / 255,
            g := ((hexDigitVal '8' * 16 + hexDigitVal '2' : ℕ) : ℚ) / 255,
            b := ((hexDigitVal '1' * 16 + hexDigitVal 'f' : ℕ) : ℚ) / 255,
            a := none } :=
  resolveColor_hex6 sampleConv 'f' '6' '8' '2' '1' 'f' (by decide) (by decide)
    (by decide) (by decide) (by decide) (by decide)

/-! ### Claim C7: shorthand hex expands by digit duplication -/

/-- C7: for every `#` followed by exactly three case-insensitive hex digits
`a`, `b`, `c`, resolving `#abc` gives the same result as resolving
`#aabbcc` (shorthand hex is expanded by duplicating each digit). -/
theorem resolveColor_hex3_eq_hex6 (conv : OklchConv) (a b c : Char)
    (ha : isHexDigitChar a = true) (hb : isHexDigitChar b = true)
    (hc : isHexDigitChar c = true) :
    resolveColorL conv ['#', a, b, c] = resolveColorL conv ['#', a, a, b, b, c, c] := by
  have htrim3 : trimL ['#', a, b, c] = ['#', a, b, c] := by
    rw [show (['#', a, b, c] : List Char) = '#' :: ([a, b] ++ [c]) from rfl]
    exact trimL_cons_concat _ _ _ (by decide) (isHexDigitChar_not_ws hc)
  have htrim6 : trimL ['#', a, a, b, b, c, c] = ['#', a, a, b, b, c, c] := by
    rw [show (['#', a, a, b, b, c, c] : List Char)
        = '#' :: ([a, a, b, b, c] ++ [c]) from rfl]
    exact trimL_cons_concat _ _ _ (by decide) (isHexDigitChar_not_ws hc)
  rw [resolveColorL, resolveColorL, resolveFuel, resolveFuel]
  simp only [htrim3, htrim6]
  rw [if_neg (by simp), if_neg (by rw [startsWithL_cons_of_ne _ _ (by decide)]; simp),
    if_neg (by rw [startsWithL_cons_of_ne _ _ (by decide)]; simp),
    if_pos (by simp [startsWithL]),
    if_neg (by simp), if_neg (by rw [startsWithL_cons_of_ne _ _ (by decide)]; simp),
    if_neg (by rw [startsWithL_cons_of_ne _ _ (by decide)]; simp),
    if_pos (by simp [startsWithL])]
  simp only [convertHexToFigma]
  simp [ha, hb, hc]

/-- Witness for C7 at the concrete input `#abc`. -/
theorem resolveColor_hex3_eq_hex6_witness :
    resolveColorL sampleConv ['#', 'a', 'b', 'c'] =
      resolveColorL sampleConv ['#', 'a', 'a', 'b', 'b', 'c', 'c'] :=
  resolveColor_hex3_eq_hex6 sampleConv 'a' 'b' 'c' (by decide) (by decide) (by decide)

/-- Witness for C4 at the concrete input `oklch(bad)`. -/
theorem resolveColor_invalidOklch_of_no_match_witness :
    trimL ("oklch(bad)".data) = "oklch(bad)".data ∧
    startsWithL ("oklch(".data) ("oklch(bad)".data) = true ∧
    oklchSearch ("oklch(bad)".data) = none ∧
    resolveColorL sampleConv ("oklch(bad)".data) =
      .error (.invalidOklch (String.mk "oklch(bad)".data)) :=
  ⟨by decide, by decide, by decide,
   resolveColor_invalidOklch_of_no_match sampleConv ("oklch(bad)".data) (by decide)
     (by decide) (by decide)⟩
